import Mathlib

/-!
Verification development for the loudness_dd repository.

Part A embeds the multi-stream coordinator of src/background.ts.
All dB quantities are modelled as exact rationals; the JavaScript value
-Infinity (the "not yet measurable" sentinel) is modelled as the `none`
case of `Option`.

Part B embeds the AudioWorklet block-loudness engine of the
lufs-processor worklet (class LufsProcessor). Audio samples and filter
arithmetic are embedded as exact real numbers.
-/

namespace LoudnessDD

/-- Constant DEFAULT_MIN_GAIN from background.ts (line 10). -/
def DEFAULT_MIN_GAIN : ℚ := -60

/-- Constant MIN_BLOCKS_FOR_RELIABLE_LUFS from background.ts (line 7). -/
def MIN_BLOCKS_FOR_RELIABLE_LUFS : ℕ := 10

/-- Interface TabCaptureState from background.ts, restricted to the fields the
claims are about.  The string metadata fields (title, url, streamId) are
omitted: they are never read or written by the operations embedded here.
The four currentLufs fields are inlined; `none` models the -Infinity
sentinel for the three loudness numbers. -/
structure TabCaptureState where
  isCapturing : Bool
  momentary : Option ℚ
  shortTerm : Option ℚ
  integrated : Option ℚ
  blockCount : ℕ
  gainDb : ℚ
  maxGainDb : ℚ
  isSolo : Bool
deriving DecidableEq

/-- The mutable module state of background.ts that the claims touch:
the capturedTabs map (embedded as an association list in insertion order,
keys unique as for a JavaScript Map) and the soloTabId variable. -/
structure CoordState where
  capturedTabs : List (ℕ × TabCaptureState)
  soloTabId : Option ℕ
deriving DecidableEq

/-- A message sent to the offscreen document.  Only SET_GAIN is relevant to
the claims; the offscreen document answers it by applying the gain and
publishing a GainUpdated event with the same value. -/
inductive OffscreenMsg where
  | setGain (tabId : ℕ) (gainDb : ℚ)
deriving DecidableEq

/-- Result of setTabGain.  `errNotCaptured` models the failure response
whose error string is "Tab is not being captured". -/
inductive SetGainResult where
  | ok
  | errNotCaptured
deriving DecidableEq

/-- The full outcome of a setTabGain call: the new coordinator state, the
messages sent to the offscreen document, and the response value. -/
structure GainOutcome where
  state : CoordState
  msgs : List OffscreenMsg
  result : SetGainResult
deriving DecidableEq

/-- The gain clamp of setTabGain (background.ts line 392):
Math.max(DEFAULT_MIN_GAIN, Math.min(tabState.maxGainDb, gainDb)). -/
def clampGain (t : TabCaptureState) (g : ℚ) : ℚ :=
  max DEFAULT_MIN_GAIN (min t.maxGainDb g)

/-- Point update of the capturedTabs map: Map.get(id) returns the live
object, so mutating it rewrites the entry with that key in place. -/
def updateTab (tabs : List (ℕ × TabCaptureState)) (id : ℕ)
    (f : TabCaptureState → TabCaptureState) : List (ℕ × TabCaptureState) :=
  tabs.map fun kv => if kv.1 = id then (kv.1, f kv.2) else kv

/-- setTabGain from background.ts (lines 382-410).  If the tab is unknown it
answers the failure response at once, touching nothing.  Otherwise it clamps
the request into [DEFAULT_MIN_GAIN, maxGainDb], sends SET_GAIN with the
clamped value to the offscreen document and stores the clamped value in
tabState.gainDb.  (The branch where the offscreen send itself fails and the
tab is removed is outside the claims and not modelled.) -/
def setTabGain (st : CoordState) (tabId : ℕ) (gainDb : ℚ) : GainOutcome :=
  match st.capturedTabs.lookup tabId with
  | none => ⟨st, [], SetGainResult.errNotCaptured⟩
  | some tabState =>
    let clamped := clampGain tabState gainDb
    ⟨{ st with capturedTabs :=
          updateTab st.capturedTabs tabId (fun u => { u with gainDb := clamped }) },
     [OffscreenMsg.setGain tabId clamped], SetGainResult.ok⟩

/-- One iteration of the autoBalanceOnce loop (background.ts lines 508-530)
for the map entry kv, acting on the accumulated state.  Mirrors the source
order: the isCapturing guard, the solo mute (setTabGain to -100), the
hasEnoughSamples guard (blockCount >= MIN_BLOCKS_FOR_RELIABLE_LUFS), the
isFinite guard on integrated loudness, then setTabGain with
targetLufs - integrated. -/
def autoBalanceStep (targetLufs : ℚ) (acc : CoordState)
    (kv : ℕ × TabCaptureState) : CoordState :=
  if kv.2.isCapturing = false then acc
  else if acc.soloTabId ≠ none ∧ acc.soloTabId ≠ some kv.1 then
    (setTabGain acc kv.1 (-100)).state
  else if kv.2.blockCount < MIN_BLOCKS_FOR_RELIABLE_LUFS then acc
  else
    match kv.2.integrated with
    | none => acc
    | some currentLufs => (setTabGain acc kv.1 (targetLufs - currentLufs)).state

/-- autoBalanceOnce from background.ts (lines 507-531): iterate the loop body
over the entries of capturedTabs. -/
def autoBalanceOnce (targetLufs : ℚ) (st : CoordState) : CoordState :=
  st.capturedTabs.foldl (autoBalanceStep targetLufs) st

/-- The value the entry with key id holds after its own autoBalanceOnce
iteration, given the solo id at that moment.  (Derived characterisation used
to state theorems; the operational definition is autoBalanceStep.) -/
def balancedTab (solo : Option ℕ) (targetLufs : ℚ) (id : ℕ)
    (t : TabCaptureState) : TabCaptureState :=
  if t.isCapturing = false then t
  else if solo ≠ none ∧ solo ≠ some id then { t with gainDb := clampGain t (-100) }
  else if t.blockCount < MIN_BLOCKS_FOR_RELIABLE_LUFS then t
  else
    match t.integrated with
    | none => t
    | some currentLufs => { t with gainDb := clampGain t (targetLufs - currentLufs) }

/-- toggleSolo from background.ts (lines 441-481), state part of the result.
An unknown id leaves the state unchanged (the source answers
success: false).  Un-soloing the current solo tab clears soloTabId and every
isSolo flag; soloing sets soloTabId and marks exactly the requested entry. -/
def toggleSolo (st : CoordState) (tabId : ℕ) : CoordState :=
  match st.capturedTabs.lookup tabId with
  | none => st
  | some _ =>
    if st.soloTabId = some tabId then
      { capturedTabs := st.capturedTabs.map fun kv => (kv.1, { kv.2 with isSolo := false }),
        soloTabId := none }
    else
      { capturedTabs := st.capturedTabs.map fun kv =>
          (kv.1, { kv.2 with isSolo := kv.1 = tabId }),
        soloTabId := some tabId }

/-- AutoBalanceSettings from background.ts. -/
structure AutoBalanceSettings where
  enabled : Bool
  targetLufs : ℚ
deriving DecidableEq

/-- setTargetLufs from background.ts (lines 580-583): the stored target is
clamped into [-60, 0]. -/
def setTargetLufs (targetLufs : ℚ) (s : AutoBalanceSettings) : AutoBalanceSettings :=
  { s with targetLufs := max (-60) (min 0 targetLufs) }

/-- The AUTO_BALANCE_REQUEST handler of background.ts (lines 906-912): the
message target, when present, is passed to autoBalanceOnce as is; when
absent the stored (clamped) setting is used. -/
def handleAutoBalanceRequest (msgTarget : Option ℚ) (s : AutoBalanceSettings)
    (st : CoordState) : CoordState :=
  autoBalanceOnce (msgTarget.getD s.targetLufs) st

/-!
Part B: the AudioWorklet block-loudness engine (class LufsProcessor of the
lufs-processor worklet).  Audio samples, filter state and squared-sample
values are embedded as exact real numbers; the float value -Infinity that
a block loudness or a derived measurement can take is embedded as the
`none` case of `Option`.
-/

noncomputable section

/-- High-shelf numerator coefficients (worklet lines 9-11). -/
def HIGH_SHELF_B : ℝ × ℝ × ℝ := (1.53512485958697, -2.69169618940638, 1.19839281085285)

/-- High-shelf denominator coefficients (worklet line 12). -/
def HIGH_SHELF_A : ℝ × ℝ × ℝ := (1, -1.69065929318241, 0.73248077421585)

/-- High-pass numerator coefficients (worklet line 13). -/
def HIGH_PASS_B : ℝ × ℝ × ℝ := (1, -2, 1)

/-- High-pass denominator coefficients (worklet line 14). -/
def HIGH_PASS_A : ℝ × ℝ × ℝ := (1, -1.99004745483398, 0.99007225036621)

/-- CHANNEL_WEIGHTS = [1.0, 1.0] for stereo (worklet line 16). -/
def CHANNEL_WEIGHTS : ℝ × ℝ := (1, 1)

/-- ABSOLUTE_THRESHOLD = -70.0 (worklet line 18). -/
def ABSOLUTE_THRESHOLD : ℝ := -70

/-- RELATIVE_THRESHOLD_OFFSET = -10.0 (worklet line 19). -/
def RELATIVE_THRESHOLD_OFFSET : ℝ := -10

/-- MAX_INTEGRATED_BLOCKS = 600 (worklet line 20). -/
def MAX_INTEGRATED_BLOCKS : ℕ := 600

/-- The two delayed inputs and two delayed outputs of one biquad stage. -/
structure BiquadState where
  x1 : ℝ
  x2 : ℝ
  y1 : ℝ
  y2 : ℝ

/-- Output of one biquad stage:
y = b0 x + b1 x1 + b2 x2 - a1 y1 - a2 y2 (worklet lines 130-135). -/
def biquadOut (b a : ℝ × ℝ × ℝ) (s : BiquadState) (x : ℝ) : ℝ :=
  b.1 * x + b.2.1 * s.x1 + b.2.2 * s.x2 - a.2.1 * s.y1 - a.2.2 * s.y2

/-- State shift of one biquad stage (worklet lines 136-139). -/
def biquadShift (s : BiquadState) (x y : ℝ) : BiquadState :=
  ⟨x, s.x1, y, s.y1⟩

/-- Per-channel engine state: the two filter stages, the ring of squared
K-weighted samples, and the running sum of squares.  The worklet stores
these as parallel typed arrays indexed by channel. -/
structure ChannelState where
  hs : BiquadState
  hp : BiquadState
  ringSquares : List ℝ
  sumSquares : ℝ

/-- Per-sample, per-channel work of LufsProcessor.process (worklet
lines 127-155 for channel 0, identical block at lines 157-185 for
channel 1): run both filter stages, square the output, subtract the
outgoing ring value from the running sum, add the new square, and store
it in the ring slot. -/
def channelStep (ringIndex : ℕ) (ch : ChannelState) (x : ℝ) : ChannelState :=
  let yHs := biquadOut HIGH_SHELF_B HIGH_SHELF_A ch.hs x
  let yHp := biquadOut HIGH_PASS_B HIGH_PASS_A ch.hp yHs
  let y2 := yHp * yHp
  let old := ch.ringSquares.getD ringIndex 0
  { hs := biquadShift ch.hs x yHs
    hp := biquadShift ch.hp yHs yHp
    ringSquares := ch.ringSquares.set ringIndex y2
    sumSquares := ch.sumSquares + (y2 - old) }

/-- The window configuration computed in the worklet constructor
(lines 59-66) from the sample rate. -/
structure LufsConfig where
  blockSizeSamples : ℕ
  hopSizeSamples : ℕ
  shortTermBlockCount : ℕ
  updateIntervalSamples : ℕ

/-- Constructor values at sampleRate = 48000 (the default, and the rate
all concrete scenarios use):
blockSizeSamples = max(128, floor(0.400 * 48000)) = 19200,
hopSizeSamples = max(1, floor(19200 * 0.25)) = 4800,
shortTermBlockCount = ceil(3000 / 100) = 30,
updateIntervalSamples = max(128, floor(0.1 * 48000)) = 4800. -/
def lufsConfig48k : LufsConfig :=
  ⟨19200, 4800, 30, 4800⟩

/-- The mutable state of a LufsProcessor instance. -/
structure LufsState where
  chL : ChannelState
  chR : ChannelState
  ringIndex : ℕ
  samplesSinceLastBlock : ℕ
  samplesSinceLastUpdate : ℕ
  blockLoudnesses : List ℝ
  shortTermBlocks : List (Option ℝ)
  blockCount : ℕ

/-- The state built by the worklet constructor (lines 68-88) and
re-established by resetState (lines 289-308): zero filter state, a ring of
blockSizeSamples zeroes per channel, zero sums, zero counters, empty
histories. -/
def initLufsState (cfg : LufsConfig) : LufsState :=
  { chL := ⟨⟨0, 0, 0, 0⟩, ⟨0, 0, 0, 0⟩, List.replicate cfg.blockSizeSamples 0, 0⟩
    chR := ⟨⟨0, 0, 0, 0⟩, ⟨0, 0, 0, 0⟩, List.replicate cfg.blockSizeSamples 0, 0⟩
    ringIndex := 0
    samplesSinceLastBlock := 0
    samplesSinceLastUpdate := 0
    blockLoudnesses := []
    shortTermBlocks := []
    blockCount := 0 }

/-- computeCurrentBlockLufs (worklet lines 240-250): weighted sum of the
per-channel mean squares; -Infinity (none) when the sum is not positive,
else -0.691 + 10 log10. -/
def computeCurrentBlockLufs (cfg : LufsConfig) (st : LufsState) : Option ℝ :=
  let sumWeighted := CHANNEL_WEIGHTS.1 * (st.chL.sumSquares / cfg.blockSizeSamples)
    + CHANNEL_WEIGHTS.2 * (st.chR.sumSquares / cfg.blockSizeSamples)
  if sumWeighted ≤ 0 then none
  else some (-0.691 + 10 * Real.logb 10 sumWeighted)

/-- Push then trim to a capacity: the worklet pushes and then, when the
length exceeds the cap, shifts the oldest entry off the front
(lines 198-201 and 203-206). -/
def pushCapped {α : Type} (cap : ℕ) (l : List α) (x : α) : List α :=
  let pushed := l ++ [x]
  if cap < pushed.length then pushed.tail else pushed

/-- The block-emission body of LufsProcessor.process (lines 196-207):
compute the block loudness, append it to the integrated history when above
the absolute threshold (cap 600), append it to the short-term history
unconditionally (cap shortTermBlockCount), increment blockCount. -/
def emitBlock (cfg : LufsConfig) (st : LufsState) : LufsState :=
  let blockLufs := computeCurrentBlockLufs cfg st
  { st with
    blockLoudnesses :=
      match blockLufs with
      | some l =>
        if ABSOLUTE_THRESHOLD < l then pushCapped MAX_INTEGRATED_BLOCKS st.blockLoudnesses l
        else st.blockLoudnesses
      | none => st.blockLoudnesses
    shortTermBlocks := pushCapped cfg.shortTermBlockCount st.shortTermBlocks blockLufs
    blockCount := st.blockCount + 1 }

/-- The ~10 Hz update-emission clause of the per-sample loop (worklet
lines 211-223): when the update counter reaches updateIntervalSamples it is
decremented and a reading is posted (the published payload itself is the
derived readingOf below). -/
def updateEmitStep (cfg : LufsConfig) (st : LufsState) : LufsState :=
  if cfg.updateIntervalSamples ≤ st.samplesSinceLastUpdate then
    { st with samplesSinceLastUpdate := st.samplesSinceLastUpdate - cfg.updateIntervalSamples }
  else st

/-- One iteration of the per-sample loop of LufsProcessor.process
(lines 125-224) on the frame (xL, xR): both channel updates, ring-index
advance with wrap (lines 188-189), counter increments (lines 190-191),
block emission every hop (lines 194-208: the guard is only
samplesSinceLastBlock >= hopSizeSamples, with the counter decremented by
the hop, phase preserved), then the update-emission clause. -/
def sampleStep (cfg : LufsConfig) (st : LufsState) (xL xR : ℝ) : LufsState :=
  let st1 : LufsState :=
    { st with
      chL := channelStep st.ringIndex st.chL xL
      chR := channelStep st.ringIndex st.chR xR
      ringIndex := if cfg.blockSizeSamples ≤ st.ringIndex + 1 then 0 else st.ringIndex + 1
      samplesSinceLastBlock := st.samplesSinceLastBlock + 1
      samplesSinceLastUpdate := st.samplesSinceLastUpdate + 1 }
  let st2 :=
    if cfg.hopSizeSamples ≤ st1.samplesSinceLastBlock then
      emitBlock cfg
        { st1 with samplesSinceLastBlock := st1.samplesSinceLastBlock - cfg.hopSizeSamples }
    else st1
  updateEmitStep cfg st2

/-- Feeding a sequence of stereo frames through the per-sample loop. -/
def processFrames (cfg : LufsConfig) (st : LufsState) (frames : List (ℝ × ℝ)) : LufsState :=
  frames.foldl (fun s f => sampleStep cfg s f.1 f.2) st

/-- The sum-of-powers loop shared by getShortTerm and getIntegrated:
for each value v it adds Math.pow(10, v / 10). -/
def sumPower (l : List ℝ) : ℝ :=
  l.foldl (fun acc v => acc + (10 : ℝ) ^ (v / 10)) 0

/-- getMomentary (worklet lines 252-255): the last short-term history
entry, -Infinity (none) when the history is empty. -/
def getMomentary (st : LufsState) : Option ℝ :=
  match st.shortTermBlocks.getLast? with
  | none => none
  | some v => v

/-- The filter inside getShortTerm (line 259): keep the finite entries
strictly above the absolute threshold (-Infinity entries never pass the
comparison). -/
def validShortTerm (blocks : List (Option ℝ)) : List ℝ :=
  blocks.filterMap fun o =>
    match o with
    | some x => if ABSOLUTE_THRESHOLD < x then some x else none
    | none => none

/-- getShortTerm (worklet lines 257-267): energy mean of the gated
short-term history; -Infinity (none) when the history is empty or the gate
removes everything. -/
def getShortTerm (st : LufsState) : Option ℝ :=
  if st.shortTermBlocks.length = 0 then none
  else
    let valid := validShortTerm st.shortTermBlocks
    if valid.length = 0 then none
    else some (10 * Real.logb 10 (sumPower valid / valid.length))

/-- getIntegrated (worklet lines 269-287) as a function of the integrated
history it reads from this.blockLoudnesses: absolute gate, first-pass mean
power, relative threshold at offset RELATIVE_THRESHOLD_OFFSET, relative
gate, final energy mean. -/
def gatedIntegrated (blockLoudnesses : List ℝ) : Option ℝ :=
  if blockLoudnesses.length = 0 then none
  else
    let aboveAbsolute := blockLoudnesses.filter fun x => decide (ABSOLUTE_THRESHOLD < x)
    if aboveAbsolute.length = 0 then none
    else
      let firstMeanPower := sumPower aboveAbsolute / aboveAbsolute.length
      let relativeThreshold := 10 * Real.logb 10 firstMeanPower + RELATIVE_THRESHOLD_OFFSET
      let aboveRelative := aboveAbsolute.filter fun x => decide (relativeThreshold < x)
      if aboveRelative.length = 0 then none
      else some (10 * Real.logb 10 (sumPower aboveRelative / aboveRelative.length))

/-- getIntegrated applied to the engine state. -/
def getIntegrated (st : LufsState) : Option ℝ :=
  gatedIntegrated st.blockLoudnesses

/-- The integrated-loudness computation as the specification words it,
written independently of the worklet code for the refinement comparison:
1. absolute gate at -70; if nothing remains, -Infinity;
2. first-pass mean power P1 and relative threshold 10 log10(P1) - 10;
3. relative gate; if nothing remains, -Infinity;
4. energy mean of what remains. -/
def specIntegratedLoudness (history : List ℝ) : Option ℝ :=
  let A := history.filter fun x => decide ((-70 : ℝ) < x)
  if A.length = 0 then none
  else
    let P1 := (A.map fun v => (10 : ℝ) ^ (v / 10)).sum / A.length
    let Tr := 10 * Real.logb 10 P1 - 10
    let R := A.filter fun x => decide (Tr < x)
    if R.length = 0 then none
    else some (10 * Real.logb 10 ((R.map fun v => (10 : ℝ) ^ (v / 10)).sum / R.length))

/-- The payload published by the ~10 Hz update emission of
LufsProcessor.process (lines 216-222). -/
structure LoudnessReading where
  momentary : Option ℝ
  shortTerm : Option ℝ
  integrated : Option ℝ
  blockCount : ℕ

/-- The reading the worklet publishes from a given state. -/
def readingOf (st : LufsState) : LoudnessReading :=
  ⟨getMomentary st, getShortTerm st, getIntegrated st, st.blockCount⟩

/-- The stated per-channel relation between the running sum and the ring
contents. -/
def RingInv (cfg : LufsConfig) (ch : ChannelState) : Prop :=
  ch.ringSquares.length = cfg.blockSizeSamples ∧ ch.sumSquares = ch.ringSquares.sum

/-- The engine invariant carried through the per-sample loop: the ring
index is in range and each channel satisfies RingInv. -/
def EngineInv (cfg : LufsConfig) (st : LufsState) : Prop :=
  st.ringIndex < cfg.blockSizeSamples ∧ RingInv cfg st.chL ∧ RingInv cfg st.chR

/-- Engine state with one quiet finite block loudness (-80 LUFS, a value a
low-level but nonsilent 400 ms block produces) in the short-term history;
everything else as after a reset. -/
def c8CounterState : LufsState :=
  { chL := ⟨⟨0, 0, 0, 0⟩, ⟨0, 0, 0, 0⟩, [], 0⟩
    chR := ⟨⟨0, 0, 0, 0⟩, ⟨0, 0, 0, 0⟩, [], 0⟩
    ringIndex := 0
    samplesSinceLastBlock := 0
    samplesSinceLastUpdate := 0
    blockLoudnesses := []
    shortTermBlocks := [some (-80)]
    blockCount := 1 }

end

/-!
Concrete coordinator fixtures used by the claim theorems below.
-/

/-- A capturing tab with integrated -30 LUFS, 46 blocks, gain 0,
max gain 0 (the default). -/
def c3TabLow : TabCaptureState := ⟨true, none, none, some (-30), 46, 0, 0, false⟩

/-- Same tab but with max gain raised to +20 dB. -/
def c3TabHigh : TabCaptureState := ⟨true, none, none, some (-30), 46, 0, 20, false⟩

def c3StLow : CoordState := ⟨[(7, c3TabLow)], none⟩

def c3StHigh : CoordState := ⟨[(7, c3TabHigh)], none⟩

/-- Tab 1 for the solo round trip: capturing, gain 0, only 5 blocks (so a
balance pass skips it). -/
def c4TabA : TabCaptureState := ⟨true, none, none, some (-20), 5, 0, 0, false⟩

/-- Tab 2 for the solo round trip: capturing, gain -6 dB before solo. -/
def c4TabB : TabCaptureState := ⟨true, none, none, some (-20), 50, -6, 0, false⟩

def c4St : CoordState := ⟨[(1, c4TabA), (2, c4TabB)], none⟩

/-- A capturing tab with default max gain and gain 0. -/
def c6Tab : TabCaptureState := ⟨true, none, none, none, 0, 0, 0, false⟩

def c6St : CoordState := ⟨[(3, c6Tab)], none⟩

/-- A capturing tab with integrated -30 LUFS, enough blocks, gain 0,
max gain 0. -/
def c7Tab : TabCaptureState := ⟨true, none, none, some (-30), 10, 0, 0, false⟩

def c7St : CoordState := ⟨[(1, c7Tab)], none⟩

/-!
Helper lemmas about association-list lookups and the coordinator
operations.
-/

theorem lookup_cons_self (k : ℕ) (v : TabCaptureState) (rest : List (ℕ × TabCaptureState)) :
    List.lookup k ((k, v) :: rest) = some v := by
  simp [List.lookup]

theorem lookup_cons_ne {id k : ℕ} (v : TabCaptureState) (rest : List (ℕ × TabCaptureState))
    (h : id ≠ k) : List.lookup id ((k, v) :: rest) = List.lookup id rest := by
  rw [List.lookup, beq_eq_false_iff_ne.mpr h]

theorem lookup_updateTab (tabs : List (ℕ × TabCaptureState)) (j id : ℕ)
    (f : TabCaptureState → TabCaptureState) :
    (updateTab tabs j f).lookup id
      = if id = j then (tabs.lookup id).map f else tabs.lookup id := by
  induction tabs with
  | nil => simp [updateTab, List.lookup]
  | cons kv rest ih =>
    obtain ⟨k, v⟩ := kv
    show List.lookup id ((if k = j then (k, f v) else (k, v)) :: updateTab rest j f) = _
    by_cases hkj : k = j
    · subst hkj
      rw [if_pos rfl]
      by_cases hik : id = k
      · subst hik
        rw [lookup_cons_self, lookup_cons_self, if_pos rfl]; rfl
      · rw [lookup_cons_ne _ _ hik, lookup_cons_ne _ _ hik, ih]
    · rw [if_neg hkj]
      by_cases hik : id = k
      · subst hik
        rw [lookup_cons_self, lookup_cons_self, if_neg hkj]
      · rw [lookup_cons_ne _ _ hik, lookup_cons_ne _ _ hik, ih]

theorem lookup_mem_keys {tabs : List (ℕ × TabCaptureState)} {id : ℕ} {t : TabCaptureState}
    (h : tabs.lookup id = some t) : id ∈ tabs.map Prod.fst := by
  induction tabs with
  | nil => simp [List.lookup] at h
  | cons kv rest ih =>
    by_cases hik : id = kv.1
    · simp [hik]
    · rw [← Prod.mk.eta (p := kv), lookup_cons_ne _ _ hik] at h
      exact List.mem_cons_of_mem _ (ih h)

theorem lookup_of_mem_nodup {tabs : List (ℕ × TabCaptureState)} {id : ℕ} {u : TabCaptureState}
    (hnd : (tabs.map Prod.fst).Nodup) (hmem : (id, u) ∈ tabs) : tabs.lookup id = some u := by
  induction tabs with
  | nil => simp at hmem
  | cons kv rest ih =>
    rw [List.map_cons, List.nodup_cons] at hnd
    rcases List.mem_cons.mp hmem with heq | hm
    · rw [← heq, lookup_cons_self]
    · have hk : id ≠ kv.1 := by
        intro hkid
        exact hnd.1 (hkid ▸ List.mem_map_of_mem Prod.fst hm)
      rw [← Prod.mk.eta (p := kv), lookup_cons_ne _ _ hk]
      exact ih hnd.2 hm

theorem setTabGain_soloTabId (st : CoordState) (id : ℕ) (g : ℚ) :
    (setTabGain st id g).state.soloTabId = st.soloTabId := by
  rw [setTabGain]
  cases st.capturedTabs.lookup id <;> rfl

theorem autoBalanceStep_soloTabId (target : ℚ) (acc : CoordState) (kv : ℕ × TabCaptureState) :
    (autoBalanceStep target acc kv).soloTabId = acc.soloTabId := by
  rw [autoBalanceStep]
  split
  · rfl
  split
  · exact setTabGain_soloTabId ..
  split
  · rfl
  · cases kv.2.integrated
    · rfl
    · exact setTabGain_soloTabId ..

theorem setTabGain_eq_found (st : CoordState) (j : ℕ) (g : ℚ) (t : TabCaptureState)
    (h : st.capturedTabs.lookup j = some t) :
    setTabGain st j g =
      ⟨{ st with capturedTabs :=
            updateTab st.capturedTabs j (fun u => { u with gainDb := clampGain t g }) },
       [OffscreenMsg.setGain j (clampGain t g)], SetGainResult.ok⟩ := by
  rw [setTabGain, h]

theorem setTabGain_lookup_ne (st : CoordState) (j id : ℕ) (g : ℚ) (h : id ≠ j) :
    (setTabGain st j g).state.capturedTabs.lookup id = st.capturedTabs.lookup id := by
  cases hl : st.capturedTabs.lookup j with
  | none => rw [setTabGain, hl]
  | some t =>
    rw [setTabGain_eq_found st j g t hl]
    dsimp only
    rw [lookup_updateTab, if_neg h]

theorem setTabGain_lookup_self (st : CoordState) (j : ℕ) (g : ℚ) (t : TabCaptureState)
    (hl : st.capturedTabs.lookup j = some t) :
    (setTabGain st j g).state.capturedTabs.lookup j
      = some { t with gainDb := clampGain t g } := by
  rw [setTabGain_eq_found st j g t hl]
  dsimp only
  rw [lookup_updateTab, if_pos rfl, hl]
  rfl

theorem autoBalanceStep_lookup_ne (target : ℚ) (acc : CoordState) (kv : ℕ × TabCaptureState)
    (id : ℕ) (h : id ≠ kv.1) :
    (autoBalanceStep target acc kv).capturedTabs.lookup id = acc.capturedTabs.lookup id := by
  rw [autoBalanceStep]
  split
  · rfl
  split
  · exact setTabGain_lookup_ne _ _ _ _ h
  split
  · rfl
  · cases kv.2.integrated
    · rfl
    · exact setTabGain_lookup_ne _ _ _ _ h

theorem autoBalanceStep_lookup_self (target : ℚ) (acc : CoordState) (id : ℕ)
    (t : TabCaptureState) (hl : acc.capturedTabs.lookup id = some t) :
    (autoBalanceStep target acc (id, t)).capturedTabs.lookup id
      = some (balancedTab acc.soloTabId target id t) := by
  rw [autoBalanceStep, balancedTab]
  split
  · exact hl
  split
  · exact setTabGain_lookup_self acc id (-100) t hl
  split
  · exact hl
  · cases htint : t.integrated with
    | none => simpa [htint] using hl
    | some lufs =>
      have h2 := setTabGain_lookup_self acc id (target - lufs) t hl
      rw [htint] at h2
      exact h2

theorem foldl_lookup_not_mem (target : ℚ) :
    ∀ (l : List (ℕ × TabCaptureState)) (acc : CoordState) (id : ℕ),
      id ∉ l.map Prod.fst →
      (l.foldl (autoBalanceStep target) acc).capturedTabs.lookup id
        = acc.capturedTabs.lookup id := by
  intro l
  induction l with
  | nil => intro acc id _; rfl
  | cons kv rest ih =>
    intro acc id hmem
    rw [List.map_cons] at hmem
    rw [List.foldl_cons, ih _ _ (fun h => hmem (List.mem_cons_of_mem _ h)),
      autoBalanceStep_lookup_ne _ _ _ _ (fun h => hmem (h ▸ List.mem_cons_self _ _))]

theorem foldl_lookup_main (target : ℚ) (solo : Option ℕ) (id : ℕ) (t : TabCaptureState) :
    ∀ (l : List (ℕ × TabCaptureState)) (acc : CoordState),
      (l.map Prod.fst).Nodup →
      acc.soloTabId = solo →
      acc.capturedTabs.lookup id = some t →
      (∀ u, (id, u) ∈ l → u = t) →
      (l.foldl (autoBalanceStep target) acc).capturedTabs.lookup id
        = if id ∈ l.map Prod.fst then some (balancedTab solo target id t) else some t := by
  intro l
  induction l with
  | nil => intro acc _ _ hl _; simpa using hl
  | cons kv rest ih =>
    intro acc hnd hsolo hl hall
    rw [List.map_cons, List.nodup_cons] at hnd
    by_cases hik : id = kv.1
    · have hkv : kv = (id, t) := by
        have h2 : kv.2 = t := hall kv.2 (by
          have h3 : (id, kv.2) = kv := by rw [hik]
          rw [h3]
          exact List.mem_cons_self _ _)
        cases kv
        simp_all
      subst hkv
      rw [List.foldl_cons,
        foldl_lookup_not_mem target rest _ id (by simpa using hnd.1),
        autoBalanceStep_lookup_self target acc id t hl, hsolo]
      simp
    · rw [List.foldl_cons]
      rw [ih (autoBalanceStep target acc kv) hnd.2
        (by rw [autoBalanceStep_soloTabId]; exact hsolo)
        (by rw [autoBalanceStep_lookup_ne _ _ _ _ hik]; exact hl)
        (fun u hu => hall u (List.mem_cons_of_mem _ hu))]
      rw [List.map_cons]
      by_cases hmem : id ∈ List.map Prod.fst rest
      · rw [if_pos hmem, if_pos (List.mem_cons_of_mem _ hmem)]
      · rw [if_neg hmem, if_neg (by
          intro hc
          rcases List.mem_cons.mp hc with hc1 | hc2
          · exact hik hc1
          · exact hmem hc2)]

/-!
Helper lemmas about the engine counters and invariants.
-/

theorem pushCapped_length {α : Type} (cap : ℕ) (l : List α) (x : α) :
    (pushCapped cap l x).length
      = if cap < l.length + 1 then l.length else l.length + 1 := by
  rw [pushCapped]
  by_cases h : cap < (l ++ [x]).length
  · rw [if_pos h, List.length_tail]
    simp at h ⊢
    rw [if_pos h]
  · rw [if_neg h]
    have h2 : ¬ cap < l.length + 1 := by simpa using h
    rw [if_neg h2]
    simp

theorem updateEmitStep_projs (cfg : LufsConfig) (st : LufsState) :
    (updateEmitStep cfg st).blockCount = st.blockCount ∧
    (updateEmitStep cfg st).samplesSinceLastBlock = st.samplesSinceLastBlock ∧
    (updateEmitStep cfg st).shortTermBlocks = st.shortTermBlocks ∧
    (updateEmitStep cfg st).blockLoudnesses = st.blockLoudnesses ∧
    (updateEmitStep cfg st).chL = st.chL ∧
    (updateEmitStep cfg st).chR = st.chR ∧
    (updateEmitStep cfg st).ringIndex = st.ringIndex := by
  rw [updateEmitStep]
  split <;> exact ⟨rfl, rfl, rfl, rfl, rfl, rfl, rfl⟩

theorem emitBlock_projs (cfg : LufsConfig) (st : LufsState) :
    (emitBlock cfg st).blockCount = st.blockCount + 1 ∧
    (emitBlock cfg st).samplesSinceLastBlock = st.samplesSinceLastBlock ∧
    (emitBlock cfg st).shortTermBlocks
      = pushCapped cfg.shortTermBlockCount st.shortTermBlocks
          (computeCurrentBlockLufs cfg st) ∧
    (emitBlock cfg st).chL = st.chL ∧
    (emitBlock cfg st).chR = st.chR ∧
    (emitBlock cfg st).ringIndex = st.ringIndex :=
  ⟨rfl, rfl, rfl, rfl, rfl, rfl⟩

theorem sampleStep_blockCount (cfg : LufsConfig) (st : LufsState) (xL xR : ℝ) :
    (sampleStep cfg st xL xR).blockCount
      = if cfg.hopSizeSamples ≤ st.samplesSinceLastBlock + 1 then st.blockCount + 1
        else st.blockCount := by
  simp only [sampleStep, (updateEmitStep_projs cfg _).1]
  split
  · exact (emitBlock_projs cfg _).1
  · rfl

theorem sampleStep_sinceBlock (cfg : LufsConfig) (st : LufsState) (xL xR : ℝ) :
    (sampleStep cfg st xL xR).samplesSinceLastBlock
      = if cfg.hopSizeSamples ≤ st.samplesSinceLastBlock + 1 then
          st.samplesSinceLastBlock + 1 - cfg.hopSizeSamples
        else st.samplesSinceLastBlock + 1 := by
  simp only [sampleStep, (updateEmitStep_projs cfg _).2.1]
  split
  · exact (emitBlock_projs cfg _).2.1
  · rfl

theorem sampleStep_stbLength (cfg : LufsConfig) (st : LufsState) (xL xR : ℝ) :
    (sampleStep cfg st xL xR).shortTermBlocks.length
      = if cfg.hopSizeSamples ≤ st.samplesSinceLastBlock + 1 then
          (if cfg.shortTermBlockCount < st.shortTermBlocks.length + 1 then
            st.shortTermBlocks.length
           else st.shortTermBlocks.length + 1)
        else st.shortTermBlocks.length := by
  simp only [sampleStep, (updateEmitStep_projs cfg _).2.2.1]
  split
  · have hlen : ∀ st3 : LufsState,
        (emitBlock cfg st3).shortTermBlocks.length
          = if cfg.shortTermBlockCount < st3.shortTermBlocks.length + 1 then
              st3.shortTermBlocks.length
            else st3.shortTermBlocks.length + 1 := by
      intro st3
      rw [(emitBlock_projs cfg st3).2.2.1, pushCapped_length]
    rw [hlen]
  · rfl

theorem processFrames_cons (cfg : LufsConfig) (st : LufsState) (f : ℝ × ℝ)
    (rest : List (ℝ × ℝ)) :
    processFrames cfg st (f :: rest)
      = processFrames cfg (sampleStep cfg st f.1 f.2) rest := by
  rw [processFrames, List.foldl_cons, processFrames]

theorem processFrames_counters (cfg : LufsConfig) (hhop : 0 < cfg.hopSizeSamples) :
    ∀ (frames : List (ℝ × ℝ)) (st : LufsState),
      st.samplesSinceLastBlock < cfg.hopSizeSamples →
      st.shortTermBlocks.length ≤ cfg.shortTermBlockCount →
      (processFrames cfg st frames).blockCount
          = st.blockCount + (st.samplesSinceLastBlock + frames.length) / cfg.hopSizeSamples
      ∧ (processFrames cfg st frames).samplesSinceLastBlock
          = (st.samplesSinceLastBlock + frames.length) % cfg.hopSizeSamples
      ∧ (processFrames cfg st frames).shortTermBlocks.length
          = min (st.shortTermBlocks.length
              + (st.samplesSinceLastBlock + frames.length) / cfg.hopSizeSamples)
              cfg.shortTermBlockCount := by
  intro frames
  induction frames with
  | nil =>
    intro st hsince hstb
    refine ⟨?_, ?_, ?_⟩
    · rw [processFrames, List.foldl_nil, List.length_nil,
        Nat.add_zero, Nat.div_eq_of_lt hsince]
      omega
    · rw [processFrames, List.foldl_nil, List.length_nil,
        Nat.add_zero, Nat.mod_eq_of_lt hsince]
    · rw [processFrames, List.foldl_nil, List.length_nil,
        Nat.add_zero, Nat.div_eq_of_lt hsince]
      omega
  | cons f rest ih =>
    intro st hsince hstb
    rw [processFrames_cons]
    have h1 := sampleStep_blockCount cfg st f.1 f.2
    have h2 := sampleStep_sinceBlock cfg st f.1 f.2
    have h3 := sampleStep_stbLength cfg st f.1 f.2
    by_cases h : cfg.hopSizeSamples ≤ st.samplesSinceLastBlock + 1
    · have hemit : st.samplesSinceLastBlock + 1 = cfg.hopSizeSamples := by omega
      rw [if_pos h] at h1 h2 h3
      have hs2 : (sampleStep cfg st f.1 f.2).samplesSinceLastBlock = 0 := by omega
      have hstb2 : (sampleStep cfg st f.1 f.2).shortTermBlocks.length
          ≤ cfg.shortTermBlockCount := by
        rw [h3]; split <;> omega
      obtain ⟨ihc, ihs, iht⟩ := ih (sampleStep cfg st f.1 f.2) (by omega) hstb2
      have hdiv : (st.samplesSinceLastBlock + (f :: rest).length) / cfg.hopSizeSamples
          = rest.length / cfg.hopSizeSamples + 1 := by
        have he : st.samplesSinceLastBlock + (f :: rest).length
            = cfg.hopSizeSamples + rest.length := by
          rw [List.length_cons]; omega
        rw [he, Nat.add_div_left _ hhop]
      have hmod : (st.samplesSinceLastBlock + (f :: rest).length) % cfg.hopSizeSamples
          = rest.length % cfg.hopSizeSamples := by
        have he : st.samplesSinceLastBlock + (f :: rest).length
            = rest.length + 1 * cfg.hopSizeSamples := by
          rw [List.length_cons]; omega
        rw [he, Nat.add_mul_mod_self_right]
      refine ⟨?_, ?_, ?_⟩
      · rw [hdiv, ihc, hs2, h1]
        simp only [Nat.zero_add]
        omega
      · rw [hmod, ihs, hs2]
        simp
      · rw [hdiv, iht, hs2, h3]
        simp only [Nat.zero_add]
        generalize rest.length / cfg.hopSizeSamples = d
        split <;> omega
    · rw [if_neg h] at h1 h2 h3
      obtain ⟨ihc, ihs, iht⟩ := ih (sampleStep cfg st f.1 f.2) (by omega)
        (by rw [h3]; exact hstb)
      have harith : (sampleStep cfg st f.1 f.2).samplesSinceLastBlock + rest.length
          = st.samplesSinceLastBlock + (f :: rest).length := by
        rw [h2, List.length_cons]; omega
      refine ⟨?_, ?_, ?_⟩
      · rw [ihc, h1, harith]
      · rw [ihs, harith]
      · rw [iht, h3, harith]

theorem initLufsState_projs (cfg : LufsConfig) :
    (initLufsState cfg).blockCount = 0 ∧
    (initLufsState cfg).samplesSinceLastBlock = 0 ∧
    (initLufsState cfg).shortTermBlocks = [] ∧
    (initLufsState cfg).blockLoudnesses = [] ∧
    (initLufsState cfg).ringIndex = 0 :=
  ⟨rfl, rfl, rfl, rfl, rfl⟩

theorem sum_set_getD (l : List ℝ) (i : ℕ) (v : ℝ) (h : i < l.length) :
    (l.set i v).sum = l.sum - l.getD i 0 + v := by
  induction l generalizing i with
  | nil => simp at h
  | cons a as ih =>
    cases i with
    | zero => simp [List.set]; ring
    | succ n =>
      rw [List.set, List.sum_cons, List.sum_cons, List.getD_cons_succ,
        ih n (by simpa using h)]
      ring

theorem channelStep_ringInv (cfg : LufsConfig) (ch : ChannelState) (x : ℝ) (i : ℕ)
    (hinv : RingInv cfg ch) (hi : i < cfg.blockSizeSamples) :
    RingInv cfg (channelStep i ch x) := by
  obtain ⟨hlen, hsum⟩ := hinv
  constructor
  · simp only [channelStep, List.length_set, hlen]
  · simp only [channelStep]
    rw [sum_set_getD _ i _ (by rw [hlen]; exact hi), hsum]
    ring

theorem updateEmitStep_chProjs (cfg : LufsConfig) (st : LufsState) :
    (updateEmitStep cfg st).chL = st.chL ∧ (updateEmitStep cfg st).chR = st.chR ∧
    (updateEmitStep cfg st).ringIndex = st.ringIndex := by
  rw [updateEmitStep]
  split <;> exact ⟨rfl, rfl, rfl⟩

theorem sampleStep_chL (cfg : LufsConfig) (st : LufsState) (xL xR : ℝ) :
    (sampleStep cfg st xL xR).chL = channelStep st.ringIndex st.chL xL := by
  simp only [sampleStep, (updateEmitStep_chProjs cfg _).1]
  split
  · rfl
  · rfl

theorem sampleStep_chR (cfg : LufsConfig) (st : LufsState) (xL xR : ℝ) :
    (sampleStep cfg st xL xR).chR = channelStep st.ringIndex st.chR xR := by
  simp only [sampleStep, (updateEmitStep_chProjs cfg _).2.1]
  split
  · rfl
  · rfl

theorem sampleStep_ringIndex (cfg : LufsConfig) (st : LufsState) (xL xR : ℝ) :
    (sampleStep cfg st xL xR).ringIndex
      = if cfg.blockSizeSamples ≤ st.ringIndex + 1 then 0 else st.ringIndex + 1 := by
  simp only [sampleStep, (updateEmitStep_chProjs cfg _).2.2]
  split
  · rfl
  · rfl

theorem sampleStep_engineInv (cfg : LufsConfig) (st : LufsState) (xL xR : ℝ)
    (hbs : 0 < cfg.blockSizeSamples) (h : EngineInv cfg st) :
    EngineInv cfg (sampleStep cfg st xL xR) := by
  obtain ⟨hri, hL, hR⟩ := h
  refine ⟨?_, ?_, ?_⟩
  · rw [sampleStep_ringIndex]
    split <;> omega
  · rw [sampleStep_chL]
    exact channelStep_ringInv cfg st.chL xL st.ringIndex hL hri
  · rw [sampleStep_chR]
    exact channelStep_ringInv cfg st.chR xR st.ringIndex hR hri

theorem processFrames_engineInv (cfg : LufsConfig) (hbs : 0 < cfg.blockSizeSamples) :
    ∀ (frames : List (ℝ × ℝ)) (st : LufsState), EngineInv cfg st →
      EngineInv cfg (processFrames cfg st frames) := by
  intro frames
  induction frames with
  | nil => intro st h; exact h
  | cons f rest ih =>
    intro st h
    rw [processFrames_cons]
    exact ih _ (sampleStep_engineInv cfg st f.1 f.2 hbs h)

theorem initLufsState_engineInv (cfg : LufsConfig) (hbs : 0 < cfg.blockSizeSamples) :
    EngineInv cfg (initLufsState cfg) := by
  refine ⟨hbs, ⟨?_, ?_⟩, ⟨?_, ?_⟩⟩ <;>
    simp [initLufsState, RingInv, List.sum_replicate]

theorem sumPower_eq_sum (l : List ℝ) :
    sumPower l = (l.map fun v => (10 : ℝ) ^ (v / 10)).sum := by
  have h : ∀ (m : List ℝ) (a : ℝ),
      m.foldl (fun acc v => acc + (10 : ℝ) ^ (v / 10)) a
        = a + (m.map fun v => (10 : ℝ) ^ (v / 10)).sum := by
    intro m
    induction m with
    | nil => intro a; simp
    | cons x xs ih =>
      intro a
      rw [List.foldl_cons, List.map_cons, List.sum_cons, ih]
      ring
  rw [sumPower, h]
  ring

theorem sum_gt_card_mul (c : ℝ) :
    ∀ (l : List ℝ), l ≠ [] → (∀ x ∈ l, c < x) → c * l.length < l.sum := by
  intro l
  induction l with
  | nil => intro h; exact absurd rfl h
  | cons a as ih =>
    intro _ hall
    rw [List.sum_cons, List.length_cons]
    rcases List.eq_nil_or_concat as with hnil | _
    · subst hnil
      simpa using hall a (List.mem_cons_self a [])
    · have has : as ≠ [] := by
        rintro rfl
        simp_all
      have h1 := ih has (fun x hx => hall x (List.mem_cons_of_mem a hx))
      have h2 := hall a (List.mem_cons_self a as)
      push_cast
      nlinarith [h1, h2]

theorem gatedMean_gt_threshold (l : List ℝ) (hne : l ≠ []) (hall : ∀ x ∈ l, (-70 : ℝ) < x) :
    (-70 : ℝ) < 10 * Real.logb 10 ((l.map fun v => (10 : ℝ) ^ (v / 10)).sum / l.length) := by
  have hterm : ∀ x ∈ (l.map fun v => (10 : ℝ) ^ (v / 10)), (10 : ℝ) ^ (-7 : ℝ) < x := by
    intro x hx
    obtain ⟨v, hv, rfl⟩ := List.mem_map.mp hx
    exact (Real.rpow_lt_rpow_left_iff (by norm_num)).mpr (by
      have := hall v hv
      linarith)
  have hlen : (l.map fun v => (10 : ℝ) ^ (v / 10)) ≠ [] := by
    simpa using hne
  have hsum := sum_gt_card_mul ((10 : ℝ) ^ (-7 : ℝ)) _ hlen hterm
  rw [List.length_map] at hsum
  have hlpos : (0 : ℝ) < l.length := by
    have : l.length ≠ 0 := fun h => hne (List.length_eq_zero.mp h)
    positivity
  have hmean : (10 : ℝ) ^ (-7 : ℝ)
      < (l.map fun v => (10 : ℝ) ^ (v / 10)).sum / l.length := by
    rw [lt_div_iff₀ hlpos]
    exact hsum
  have hlogb : (-7 : ℝ)
      < Real.logb 10 ((l.map fun v => (10 : ℝ) ^ (v / 10)).sum / l.length) := by
    have := Real.logb_lt_logb (b := 10) (by norm_num)
      (Real.rpow_pos_of_pos (by norm_num) _) hmean
    rwa [Real.logb_rpow (b := 10) (by norm_num) (by norm_num)] at this
  nlinarith [hlogb]

theorem validShortTerm_mem {blocks : List (Option ℝ)} {x : ℝ}
    (hx : x ∈ validShortTerm blocks) : (-70 : ℝ) < x := by
  rw [validShortTerm] at hx
  obtain ⟨o, -, ho⟩ := List.mem_filterMap.mp hx
  match o with
  | none => simp at ho
  | some v =>
    dsimp only at ho
    by_cases hv : ABSOLUTE_THRESHOLD < v
    · rw [if_pos hv] at ho
      have hvx : v = x := by simpa using ho
      rw [ABSOLUTE_THRESHOLD] at hv
      exact hvx ▸ hv
    · rw [if_neg hv] at ho
      simp at ho

theorem mem_filter_above {l : List ℝ} {c x : ℝ}
    (hx : x ∈ l.filter fun y => decide (c < y)) : c < x := by
  have := List.of_mem_filter hx
  simpa using this

/-!
The claim theorems.
-/

/-- Claim C1.  The claim states that a fresh (or reset) engine emits no
block (no history append, no blockCount increment) before
blockSizeSamples samples have been ingested.  The code violates this:
after 4800 samples (one hop at 48 kHz, with the 19200-sample ring only a
quarter full) the engine has already emitted one block: blockCount is 1
and the short-term history holds one entry. -/
theorem c1_code_emits_before_ring_full :
    (processFrames lufsConfig48k (initLufsState lufsConfig48k)
        (List.replicate 4800 ((0 : ℝ), (0 : ℝ)))).blockCount = 1 ∧
    (processFrames lufsConfig48k (initLufsState lufsConfig48k)
        (List.replicate 4800 ((0 : ℝ), (0 : ℝ)))).shortTermBlocks.length = 1 ∧
    4800 < lufsConfig48k.blockSizeSamples := by
  obtain ⟨hc, -, ht⟩ := processFrames_counters lufsConfig48k (by decide)
    (List.replicate 4800 ((0 : ℝ), (0 : ℝ))) (initLufsState lufsConfig48k)
    (by rw [(initLufsState_projs _).2.1]; decide)
    (by rw [(initLufsState_projs _).2.2.1]; decide)
  refine ⟨?_, ?_, by decide⟩
  · rw [hc, (initLufsState_projs lufsConfig48k).1, (initLufsState_projs lufsConfig48k).2.1,
      List.length_replicate, show lufsConfig48k.hopSizeSamples = 4800 from rfl]
  · rw [ht, (initLufsState_projs lufsConfig48k).2.1,
      (initLufsState_projs lufsConfig48k).2.2.1, List.length_replicate,
      show lufsConfig48k.hopSizeSamples = 4800 from rfl,
      show lufsConfig48k.shortTermBlockCount = 30 from rfl]
    decide

/-- Claim C2.  After any 240000 frames (5 seconds at 48 kHz, in particular
the -18 dB stereo sine of the scenario) a fresh engine has blockCount
240000 / 4800 = 50, which is not 46 within plus or minus 1 (a warm-up
gated engine would report 47). -/
theorem c2_blockCount_after_5s (frames : List (ℝ × ℝ)) (hlen : frames.length = 240000) :
    (processFrames lufsConfig48k (initLufsState lufsConfig48k) frames).blockCount = 50 ∧
    ¬(45 ≤ (processFrames lufsConfig48k (initLufsState lufsConfig48k) frames).blockCount ∧
        (processFrames lufsConfig48k (initLufsState lufsConfig48k) frames).blockCount ≤ 47) := by
  obtain ⟨hc, -, -⟩ := processFrames_counters lufsConfig48k (by decide)
    frames (initLufsState lufsConfig48k)
    (by rw [(initLufsState_projs _).2.1]; decide)
    (by rw [(initLufsState_projs _).2.2.1]; decide)
  rw [hlen] at hc
  have h50 : (processFrames lufsConfig48k (initLufsState lufsConfig48k) frames).blockCount
      = 50 := by
    rw [hc, (initLufsState_projs _).1, (initLufsState_projs _).2.1,
      show lufsConfig48k.hopSizeSamples = 4800 from rfl]
  exact ⟨h50, by omega⟩

/-- Claim C2, witness: the theorem applied to a concrete 240000-frame
input. -/
theorem c2_witness :
    (processFrames lufsConfig48k (initLufsState lufsConfig48k)
        (List.replicate 240000 ((0 : ℝ), (0 : ℝ)))).blockCount = 50 ∧
    ¬(45 ≤ (processFrames lufsConfig48k (initLufsState lufsConfig48k)
          (List.replicate 240000 ((0 : ℝ), (0 : ℝ)))).blockCount ∧
        (processFrames lufsConfig48k (initLufsState lufsConfig48k)
          (List.replicate 240000 ((0 : ℝ), (0 : ℝ)))).blockCount ≤ 47) :=
  c2_blockCount_after_5s (List.replicate 240000 ((0 : ℝ), (0 : ℝ)))
    (List.length_replicate 240000 ((0 : ℝ), (0 : ℝ)))

/-- Claim C3.  For a captured, capturing stream that solo does not mute,
a one-shot balance pass leaves the stream untouched when blockCount is
below MIN_BLOCKS_FOR_RELIABLE_LUFS or integrated loudness is -Infinity,
and otherwise stores exactly (target - integrated) clamped into
[-60, maxGainDb].  (Key uniqueness of capturedTabs, a JavaScript Map
property, is the hnd hypothesis.) -/
theorem c3_autoBalance_gain (st : CoordState) (target : ℚ) (id : ℕ) (t : TabCaptureState)
    (hnd : (st.capturedTabs.map Prod.fst).Nodup)
    (hlook : st.capturedTabs.lookup id = some t)
    (hcap : t.isCapturing = true)
    (hsolo : st.soloTabId = none ∨ st.soloTabId = some id) :
    ((t.blockCount < MIN_BLOCKS_FOR_RELIABLE_LUFS ∨ t.integrated = none) →
        (autoBalanceOnce target st).capturedTabs.lookup id = some t) ∧
    (∀ lufs, t.integrated = some lufs → MIN_BLOCKS_FOR_RELIABLE_LUFS ≤ t.blockCount →
        (autoBalanceOnce target st).capturedTabs.lookup id
          = some { t with gainDb := max (-60) (min t.maxGainDb (target - lufs)) }) := by
  have hmem : id ∈ st.capturedTabs.map Prod.fst := lookup_mem_keys hlook
  have hall : ∀ u, (id, u) ∈ st.capturedTabs → u = t := by
    intro u hu
    have := lookup_of_mem_nodup hnd hu
    rw [hlook] at this
    exact (Option.some.injEq _ _).mp this.symm
  have hmain := foldl_lookup_main target st.soloTabId id t st.capturedTabs st hnd rfl hlook hall
  rw [if_pos hmem] at hmain
  have hbal : (autoBalanceOnce target st).capturedTabs.lookup id
      = some (balancedTab st.soloTabId target id t) := hmain
  have hnosolo : ¬(st.soloTabId ≠ none ∧ st.soloTabId ≠ some id) := by
    rcases hsolo with h | h <;> simp [h]
  constructor
  · intro hskip
    rw [hbal, balancedTab, if_neg (by simp [hcap]), if_neg hnosolo]
    rcases hskip with hbc | hint
    · rw [if_pos hbc]
    · rw [hint]
      split <;> rfl
  · intro lufs hint hbc
    rw [hbal, balancedTab, if_neg (by simp [hcap]), if_neg hnosolo,
      if_neg (by omega), hint]
    rfl

/-- Claim C3, witness: a stream at integrated -30 balanced toward -14
gets gain 0 with max gain 0 and gain +16 with max gain +20. -/
theorem c3_witness :
    (autoBalanceOnce (-14) c3StLow).capturedTabs.lookup 7
        = some { c3TabLow with gainDb := max (-60) (min 0 ((-14) - (-30))) } ∧
    (autoBalanceOnce (-14) c3StHigh).capturedTabs.lookup 7
        = some { c3TabHigh with gainDb := max (-60) (min 20 ((-14) - (-30))) } ∧
    max (-60) (min (0 : ℚ) ((-14) - (-30))) = 0 ∧
    max (-60) (min (20 : ℚ) ((-14) - (-30))) = 16 :=
  ⟨(c3_autoBalance_gain c3StLow (-14) 7 c3TabLow (by decide) rfl rfl (Or.inl rfl)).2
      (-30) rfl (by decide),
   (c3_autoBalance_gain c3StHigh (-14) 7 c3TabHigh (by decide) rfl rfl (Or.inl rfl)).2
      (-30) rfl (by decide),
   by norm_num, by norm_num⟩

/-- Claim C4.  The claim states that Solo(a); Solo(a) with balancing
passes in between restores every gain.  The code violates this: starting
from gains (0, -6), after Solo(1), one balance pass toward -14, and
Solo(1) again, solo is cleared but stream 2 is left at -60 dB (the
solo-mute pass stored the clamped -100 into its gain field, and un-solo
only clears flags), not at its pre-solo -6 dB.  Stream 1 is unchanged. -/
theorem c4_solo_balance :
    (toggleSolo (autoBalanceOnce (-14) (toggleSolo c4St 1)) 1).soloTabId = none ∧
    (toggleSolo (autoBalanceOnce (-14) (toggleSolo c4St 1)) 1).capturedTabs.lookup 2
      = some { c4TabB with gainDb := -60 } ∧
    (toggleSolo (autoBalanceOnce (-14) (toggleSolo c4St 1)) 1).capturedTabs.lookup 1
      = some c4TabA ∧
    c4TabB.gainDb = -6 ∧ ((-60 : ℚ) ≠ -6) :=
  ⟨by decide, by decide, by decide, by decide, by norm_num⟩

/-- Claim C5.  The worklet getIntegrated computation on an arbitrary
recorded history equals the four-step computation the specification
describes (absolute gate at -70, first-pass mean power, relative
threshold 10 log10(P1) - 10, relative gate, final energy mean). -/
theorem c5_integrated_refines_spec (history : List ℝ) :
    gatedIntegrated history = specIntegratedLoudness history := by
  rw [gatedIntegrated, specIntegratedLoudness]
  by_cases h0 : history.length = 0
  · rw [if_pos h0]
    have he : history = [] := List.length_eq_zero.mp h0
    subst he
    simp
  · rw [if_neg h0]
    simp only [sumPower_eq_sum, ABSOLUTE_THRESHOLD, RELATIVE_THRESHOLD_OFFSET,
      ← sub_eq_add_neg]

/-- Claim C6.  setTabGain on a registered stream succeeds, sends the
clamped value max(-60, min(maxGainDb, g)) to the audio stage, and stores
exactly that clamped value. -/
theorem c6_setTabGain (st : CoordState) (id : ℕ) (g : ℚ) (t : TabCaptureState)
    (h : st.capturedTabs.lookup id = some t) :
    (setTabGain st id g).result = SetGainResult.ok ∧
    (setTabGain st id g).msgs
      = [OffscreenMsg.setGain id (max (-60) (min t.maxGainDb g))] ∧
    (setTabGain st id g).state.capturedTabs.lookup id
      = some { t with gainDb := max (-60) (min t.maxGainDb g) } := by
  refine ⟨?_, ?_, setTabGain_lookup_self st id g t h⟩
  · rw [setTabGain_eq_found st id g t h]
  · rw [setTabGain_eq_found st id g t h]
    rfl

/-- Claim C6, witness: a +100 dB request on a stream with max gain 0
applies exactly 0. -/
theorem c6_witness :
    (setTabGain c6St 3 100).result = SetGainResult.ok ∧
    (setTabGain c6St 3 100).msgs
      = [OffscreenMsg.setGain 3 (max (-60) (min c6Tab.maxGainDb 100))] ∧
    (setTabGain c6St 3 100).state.capturedTabs.lookup 3
      = some { c6Tab with gainDb := max (-60) (min c6Tab.maxGainDb 100) } ∧
    max (-60) (min c6Tab.maxGainDb 100) = 0 := by
  have h := c6_setTabGain c6St 3 100 c6Tab rfl
  exact ⟨h.1, h.2.1, h.2.2, by decide⟩

/-- Claim C7, counterexample.  The claim states that a target passed
directly to a one-shot balance request is clamped into [-60, 0] before
use.  It is not: with a stream at integrated -30 (max gain 0, gain 0), a
direct target of -100 yields gain clamp(-100 - (-30)) = -60, while the
claimed clamping to -60 would yield gain -60 - (-30) = -30. -/
theorem c7_counterexample :
    ¬ ∀ (t : ℚ) (s : AutoBalanceSettings) (st : CoordState),
        handleAutoBalanceRequest (some t) s st
          = autoBalanceOnce (max (-60) (min 0 t)) st := by
  intro hall
  have h1 : (handleAutoBalanceRequest (some (-100)) ⟨false, -14⟩ c7St).capturedTabs.lookup 1
      = some { c7Tab with gainDb := -60 } := by
    simp [handleAutoBalanceRequest, autoBalanceOnce, autoBalanceStep, setTabGain, updateTab,
      clampGain, c7St, c7Tab, MIN_BLOCKS_FOR_RELIABLE_LUFS, DEFAULT_MIN_GAIN, List.lookup]
    norm_num
  have h2 : (autoBalanceOnce (max (-60) (min 0 (-100))) c7St).capturedTabs.lookup 1
      = some { c7Tab with gainDb := -30 } := by
    simp [autoBalanceOnce, autoBalanceStep, setTabGain, updateTab,
      clampGain, c7St, c7Tab, MIN_BLOCKS_FOR_RELIABLE_LUFS, DEFAULT_MIN_GAIN, List.lookup]
    norm_num
  rw [hall (-100) ⟨false, -14⟩ c7St, h2] at h1
  simp [TabCaptureState.mk.injEq, c7Tab] at h1

/-- Claim C7, amended.  A target stored through setTargetLufs is clamped
into [-60, 0] (-100 becomes -60, +100 becomes 0); a target passed
directly with a one-shot balance request is used as supplied, without
clamping (only the resulting per-stream gains are clamped); an absent
direct target falls back to the stored, already clamped, setting. -/
theorem c7_amended :
    (∀ t s, (setTargetLufs t s).targetLufs = max (-60) (min 0 t)) ∧
    (∀ t s st, handleAutoBalanceRequest (some t) s st = autoBalanceOnce t st) ∧
    (∀ s st, handleAutoBalanceRequest none s st = autoBalanceOnce s.targetLufs st) ∧
    setTargetLufs (-100) ⟨false, -14⟩ = ⟨false, -60⟩ ∧
    setTargetLufs 100 ⟨false, -14⟩ = ⟨false, 0⟩ :=
  ⟨fun _ _ => rfl, fun _ _ _ => rfl, fun _ _ => rfl, by decide, by decide⟩

/-- Claim C8, counterexample.  The claim states that every published
momentary, short-term and integrated field below -70 LUFS is reported as
-Infinity.  The momentary field is the raw most recent block loudness and
is published unfiltered: a state whose last block measured -80 LUFS
publishes momentary = -80, a finite value below -70. -/
theorem c8_counterexample :
    ¬ ∀ (st : LufsState) (x : ℝ), (readingOf st).momentary = some x → (-70 : ℝ) ≤ x := by
  intro hall
  have h := hall c8CounterState (-80) rfl
  norm_num at h

/-- Claim C8, amended.  The short-term and integrated fields are never
finite values at or below -70 LUFS: each is either -Infinity or a value
strictly above -70 (their -70 gating forces the energy mean above the
threshold).  The momentary field carries no such guarantee. -/
theorem c8_gating (st : LufsState) :
    (getShortTerm st = none ∨ ∃ x, getShortTerm st = some x ∧ (-70 : ℝ) < x) ∧
    (getIntegrated st = none ∨ ∃ x, getIntegrated st = some x ∧ (-70 : ℝ) < x) := by
  constructor
  · simp only [getShortTerm]
    by_cases h0 : st.shortTermBlocks.length = 0
    · rw [if_pos h0]
      exact Or.inl rfl
    · rw [if_neg h0]
      by_cases h1 : (validShortTerm st.shortTermBlocks).length = 0
      · rw [if_pos h1]
        exact Or.inl rfl
      · rw [if_neg h1]
        refine Or.inr ⟨_, rfl, ?_⟩
        rw [sumPower_eq_sum]
        exact gatedMean_gt_threshold _ (fun h => h1 (by rw [h]; rfl))
          (fun x hx => validShortTerm_mem hx)
  · simp only [getIntegrated, gatedIntegrated]
    by_cases h0 : st.blockLoudnesses.length = 0
    · rw [if_pos h0]
      exact Or.inl rfl
    · rw [if_neg h0]
      by_cases h1 : (st.blockLoudnesses.filter fun x =>
          decide (ABSOLUTE_THRESHOLD < x)).length = 0
      · rw [if_pos h1]
        exact Or.inl rfl
      · rw [if_neg h1]
        by_cases h2 : ((st.blockLoudnesses.filter fun x => decide (ABSOLUTE_THRESHOLD < x)).filter
            fun x => decide (10 * Real.logb 10
              (sumPower (st.blockLoudnesses.filter fun x => decide (ABSOLUTE_THRESHOLD < x))
                / (st.blockLoudnesses.filter fun x =>
                    decide (ABSOLUTE_THRESHOLD < x)).length)
              + RELATIVE_THRESHOLD_OFFSET < x)).length = 0
        · rw [if_pos h2]
          exact Or.inl rfl
        · rw [if_neg h2]
          refine Or.inr ⟨_, rfl, ?_⟩
          rw [sumPower_eq_sum]
          refine gatedMean_gt_threshold _ (fun h => h2 (by rw [h]; rfl)) ?_
          intro x hx
          have hmem := List.mem_of_mem_filter hx
          have := mem_filter_above hmem
          rwa [ABSOLUTE_THRESHOLD] at this

/-- Claim C9.  After processing any frame sequence from a fresh engine,
each channel running sum of squares equals the exact sum of the squared
values currently stored in that channel ring buffer (exact equality under
the exact-real embedding of sum_sq += y2 - old; ring[i] = y2). -/
theorem c9_running_sum_matches_ring (cfg : LufsConfig) (hbs : 0 < cfg.blockSizeSamples)
    (frames : List (ℝ × ℝ)) :
    (processFrames cfg (initLufsState cfg) frames).chL.sumSquares
        = (processFrames cfg (initLufsState cfg) frames).chL.ringSquares.sum ∧
    (processFrames cfg (initLufsState cfg) frames).chR.sumSquares
        = (processFrames cfg (initLufsState cfg) frames).chR.ringSquares.sum := by
  obtain ⟨-, ⟨-, hL⟩, ⟨-, hR⟩⟩ :=
    processFrames_engineInv cfg hbs frames (initLufsState cfg) (initLufsState_engineInv cfg hbs)
  exact ⟨hL, hR⟩

/-- Claim C9, witness: the theorem applied at the 48 kHz configuration. -/
theorem c9_witness :
    0 < lufsConfig48k.blockSizeSamples ∧
    ((processFrames lufsConfig48k (initLufsState lufsConfig48k) []).chL.sumSquares
        = (processFrames lufsConfig48k (initLufsState lufsConfig48k) []).chL.ringSquares.sum ∧
      (processFrames lufsConfig48k (initLufsState lufsConfig48k) []).chR.sumSquares
        = (processFrames lufsConfig48k (initLufsState lufsConfig48k) []).chR.ringSquares.sum) :=
  ⟨by decide, c9_running_sum_matches_ring lufsConfig48k (by decide) []⟩

/-- Claim C10.  A SetGain request for a stream id that is not captured
returns the failure response (error message "Tab is not being captured",
modelled as errNotCaptured), sends nothing to the audio stage, and
returns the coordinator state exactly unchanged. -/
theorem c10_setTabGain_unknown (st : CoordState) (id : ℕ) (g : ℚ)
    (h : st.capturedTabs.lookup id = none) :
    setTabGain st id g = ⟨st, [], SetGainResult.errNotCaptured⟩ := by
  rw [setTabGain, h]

/-- Claim C10, witness: the theorem applied to the empty coordinator. -/
theorem c10_witness :
    setTabGain ⟨[], none⟩ 1 5 = ⟨⟨[], none⟩, [], SetGainResult.errNotCaptured⟩ :=
  c10_setTabGain_unknown ⟨[], none⟩ 1 5 rfl

end LoudnessDD
